import Mathlib

/-
Verification development for the healing-codes service (src/healing_api.py).

The Python source is shallowly embedded below.  Conventions used throughout:

* Python machine floats are modelled by exact rationals (ℚ).  The golden
  ratio constant PHI is the IEEE double value of (1+sqrt(5))/2, written as
  its shortest round-tripping decimal; float products are modelled as exact
  rational products (the sub-ulp rounding of a single multiplication is
  abstracted away and never decides any statement proved here).
* The cryptographic hash helpers (hashlib.sha256 / hashlib.sha512 hexdigest)
  and Python float repr used inside hash-input strings are external library
  calls; the definitions are parameterised over them, so every theorem holds
  for every implementation of those helpers.
* Python str is modelled by String, with explicit list-of-chars helpers
  (strTake, strLower, pyStrip) mirroring slicing, lower() and strip().
* Python int() truncation toward zero on a nonnegative rational is pyInt,
  and the float modulo operator is pyFloatMod.
* The in-memory session dict is modelled per session as Option Session
  (present or already reaped); for the heartbeat endpoint, which juggles two
  distinct ids, it is modelled as an insertion-ordered association list.
-/

namespace HealingApi

/-! ## Python string / number helpers -/

/-- Python s[:n] on a string. -/
def strTake (s : String) (n : Nat) : String :=
  String.mk (s.data.take n)

/-- Python s.lower(). -/
def strLower (s : String) : String :=
  String.mk (s.data.map Char.toLower)

/-- Python str.strip(): drop leading and trailing whitespace. -/
def pyStrip (s : String) : String :=
  String.mk (((s.data.dropWhile Char.isWhitespace).reverse.dropWhile Char.isWhitespace).reverse)

/-- Python "".join(l). -/
def strJoin (l : List String) : String :=
  l.foldl (fun r t => r ++ t) ""

/-- Sum of Unicode code points of the characters of a string:
Python sum(ord(c) for c in s). -/
def charSum (s : String) : Nat :=
  (s.data.map Char.toNat).sum

/-- Absolute value on ℚ, written so the kernel evaluates it directly. -/
def ratAbs (q : ℚ) : ℚ :=
  if q < 0 then -q else q

/-- Python max(a, b) on ints (returns the first argument on ties). -/
def intMax (a b : ℤ) : ℤ :=
  if a < b then b else a

/-- Python int(q): truncation toward zero. -/
def pyInt (q : ℚ) : ℤ :=
  if q < 0 then -Int.floor (-q) else Int.floor q

/-- Python a % b on floats, for b > 0: the result has the sign of b. -/
def pyFloatMod (a b : ℚ) : ℚ :=
  a - b * Int.floor (a / b)

/-- Round to nearest integer, ties to even (Python round()'s banker rounding). -/
def roundHalfEven (x : ℚ) : ℤ :=
  let f := Int.floor x
  let frac := x - f
  if frac < 1/2 then f
  else if 1/2 < frac then f + 1
  else if f % 2 = 0 then f else f + 1

/-- Python round(x, 3). -/
def round3 (x : ℚ) : ℚ :=
  (roundHalfEven (x * 1000) : ℚ) / 1000

/-- Python min(l, key=k): the first element attaining the minimal key
(later elements replace the current best only on a strictly smaller key). -/
def argminFirst {α : Type} (key : α → ℚ) : List α → Option α
  | [] => none
  | x :: xs => some (xs.foldl (fun b y => if key y < key b then y else b) x)

/-! ## Sacred-geometry constants (healing_api.py lines 94-115) -/

/-- The IEEE-double value (shortest repr) of PHI = (1 + math.sqrt(5)) / 2. -/
def PHI : ℚ := 1.618033988749895

def FIBONACCI : List ℤ := [1, 1, 2, 3, 5, 8, 13, 21, 34, 55, 89, 144, 233, 377, 610, 987]

def METATRON : List ℕ := [3, 6, 9, 12, 15, 18, 21, 24, 27, 30, 33, 36, 39, 42, 45, 48]

/-- PLANETARY_ANGLES as an insertion-ordered association list. -/
def PLANETARY_ANGLES : List (String × ℚ) :=
  [("sun", 0), ("moon", 30), ("mercury", 60), ("venus", 90), ("mars", 120),
   ("jupiter", 150), ("saturn", 180), ("uranus", 210), ("neptune", 240), ("pluto", 270)]

/-! ## Artifact Generator stages

Each stage is parameterised over the hex-digest hash helpers it calls
(h256 models hashlib.sha256(...).hexdigest(), h512 models
hashlib.sha512(...).hexdigest()) and, where float values are embedded in
hash inputs, over a Python float-repr function pyRepr : ℚ → String. -/

/-- Result record of divine_proportion_amplify (lines 118-145). -/
structure AmplifyRec where
  original : String
  phi_amplified : String
  fibonacci_multiplier : ℤ
  metatronic_alignment : ℕ
deriving DecidableEq, Repr

/-- divine_proportion_amplify(intention, multiplier) from lines 118-145.
phi_segments models: for each (i, char) of the sha512 hex digest,
format(int(ord(char) * PHI ** (i % 7 + 1)) % 100, '02d'). -/
def divine_proportion_amplify (h256 h512 : String → String)
    (intention : String) (multiplier : ℤ) : AmplifyRec :=
  let encoded := h512 intention
  let segs := encoded.data.enum.map (fun p =>
    let v := pyInt ((p.2.toNat : ℚ) * PHI ^ (p.1 % 7 + 1)) % 100
    if v < 10 then "0" ++ toString v else toString v)
  let amplified := strJoin segs
  let spiral_hash := h256 (amplified ++ intention)
  let fib_multiplier := (FIBONACCI.find? (fun f => decide (multiplier ≤ f))).getD
    (FIBONACCI.getLastD 0)
  { original := intention
    phi_amplified := spiral_hash
    fibonacci_multiplier := fib_multiplier
    metatronic_alignment :=
      let h := charSum intention % 9
      if h = 0 then 9 else h }

/-- Result record of metatrons_cube_amplifier (lines 208-245).
The platonic_solids sub-dict is the first five spheres. -/
structure MetatronRec where
  intention : String
  metatron_code : String
  harmonic : ℕ
  platonic_solids : List String
  activation_key : String
deriving DecidableEq, Repr

/-- metatrons_cube_amplifier(intention, boost) from lines 208-245. -/
def metatrons_cube_amplifier (h512 : String → String)
    (intention : String) (boost : Bool) : MetatronRec :=
  let intention_spheres := (List.range 13).map (fun i =>
    strTake (h512 (intention ++ toString (METATRON.getD (i % METATRON.length) 0))) 6)
  let metatron_code :=
    if boost then strJoin intention_spheres else strJoin (intention_spheres.take 5)
  let h0 := charSum intention % 9
  let harmonic := if h0 = 0 then 9 else h0
  { intention := intention
    metatron_code := metatron_code
    harmonic := harmonic
    platonic_solids := intention_spheres.take 5
    activation_key :=
      toString (harmonic * 3) ++ "-" ++ toString (harmonic * 6) ++ "-" ++ toString (harmonic * 9) }

/-- Result record of torus_field_generator (lines 248-279). -/
structure TorusRec where
  intention : String
  torus_frequency : ℚ
  schumann_ratio : ℚ
  inner_flow : String
  outer_flow : String
  phase_angle : ℚ
  coherence : ℚ
  tesla_node : ℕ
  activation_sequence : String
deriving DecidableEq, Repr

/-- torus_field_generator(intention, hz) from lines 248-279. -/
def torus_field_generator (h512 : String → String)
    (intention : String) (hz : ℚ) : TorusRec :=
  let schumann_ratio := hz / 7.83
  let inner_flow := strTake (h512 (intention ++ "inner")) 12
  let outer_flow := strTake (h512 (intention ++ "outer")) 12
  let phase_angle := pyFloatMod (hz * 360) 360
  let coherence := 0.618 * schumann_ratio
  let tesla_node := (argminFirst (fun x : ℕ => ratAbs ((x : ℚ) - pyFloatMod hz 10)) [3, 6, 9]).getD 3
  { intention := intention
    torus_frequency := hz
    schumann_ratio := round3 schumann_ratio
    inner_flow := inner_flow
    outer_flow := outer_flow
    phase_angle := phase_angle
    coherence := round3 coherence
    tesla_node := tesla_node
    activation_sequence := toString tesla_node ++ toString tesla_node ++ strTake inner_flow tesla_node }

/-- Wall-clock time of day, the datetime.now() reading used by
flower_of_life_pattern. -/
structure ClockTime where
  hour : ℕ
  minute : ℕ
deriving DecidableEq, Repr

/-- Result record of flower_of_life_pattern (lines 173-205). -/
structure FlowerRec where
  intention : String
  flower_pattern : String
  planetary_alignment : String
  cosmic_degree : ℚ
  optimal_duration : ℤ
  vesica_pisces_code : String
deriving DecidableEq, Repr

/-- flower_of_life_pattern(intention, duration) from lines 173-205.
The stage reads datetime.now(); the reading is an explicit ClockTime
argument here.  pyRepr models the float repr embedded in the hash input
f-string. -/
def flower_of_life_pattern (h256 : String → String) (pyRepr : ℚ → String)
    (intention : String) (duration : ℤ) (now : ClockTime) : FlowerRec :=
  let cosmic_degree : ℚ := (now.hour : ℚ) * 15 + (now.minute : ℚ) / 4
  let aligned_planet :=
    ((argminFirst (fun p => ratAbs (p.2 - cosmic_degree)) PLANETARY_ANGLES).map Prod.fst).getD "sun"
  let seed_patterns := (List.range 7).map (fun i =>
    strTake (h256 (intention ++ ":" ++ pyRepr ((i : ℚ) * (360 / 7)) ++ ":"
      ++ pyRepr (((i : ℚ) + 1) * PHI))) 8)
  let fol_pattern := strJoin seed_patterns
  let optimal_duration := intMax duration (pyInt ((duration : ℚ) * PHI))
  { intention := intention
    flower_pattern := fol_pattern
    planetary_alignment := aligned_planet
    cosmic_degree := cosmic_degree
    optimal_duration := optimal_duration
    vesica_pisces_code :=
      seed_patterns.getD 0 "" ++ " " ++ seed_patterns.getD 3 "" ++ " " ++ seed_patterns.getD 6 "" }

/-! ## Session Broadcast Engine

The per-session slot of the active_sessions dict is Option Session: some for
a stored record, none when the id is absent (never created, or reaped).
Only the fields the lifecycle claims speak about are carried: the status
enum and the iteration counter the worker advances; the remaining
generator-derived fields are write-once decorations of the same record. -/

/-- The session status strings "running" / "stopped" / "completed". -/
inductive Status where
  | running
  | stopped
  | completed
deriving DecidableEq, Repr

/-- One session record in active_sessions. -/
structure Session where
  status : Status
  iterations : ℕ
deriving DecidableEq, Repr

/-- One session's slot in the active_sessions dict. -/
abbrev Reg := Option Session

/-- stop_intention (lines 695-706): when the session id is present the
status is set to "stopped" (whatever it was) and the endpoint returns
success True; otherwise the record is untouched and it returns False. -/
def stop_intention : Reg → Reg × Bool
  | some s => (some { s with status := Status.stopped }, true)
  | none => (none, false)

/-- n successive stop_intention calls on one session slot, collecting the
returned success flags in call order. -/
def stopN : ℕ → Reg → Reg × List Bool
  | 0, r => (r, [])
  | n + 1, r =>
    let p := stop_intention r
    let q := stopN n p.1
    (q.1, p.2 :: q.2)

/-- A single write the repeater worker performs on its session record:
either the per-tick progress update (line 656) or the final
status = "completed" assignment (line 666). -/
inductive WWrite where
  | progress (iterations : ℕ)
  | setCompleted
deriving DecidableEq, Repr

/-- The write after the repeater loop (line 666):
active_sessions[session_id]["status"] = "completed".  When the id is absent
the subscript raises KeyError and the worker thread dies having written
nothing (and the deferred-removal timer on line 668 is never started). -/
def finishWrite : Reg → Reg × List WWrite
  | some s => (some { s with status := Status.completed }, [WWrite.setCompleted])
  | none => (none, [])

/-- The repeater worker loop of run_intention (lines 629-668).

Time and interleaved external operations are modelled by env: one entry per
remaining tick before the wall-clock duration elapses, each entry being the
net effect of the outside world (stop requests, reaping) on the session
slot between the worker's observations.  Each iteration re-reads the slot
(line 630): on an absent id or a "stopped" status the loop breaks;
otherwise the worker advances the iteration counter by the fibonacci
multiplier and writes the progress update.  When env is exhausted the
while-condition fails (duration elapsed).  In all exit paths line 666 runs
(finishWrite).  The second component is the log of the worker's own writes
in program order. -/
def repeaterLoop (mult : ℕ) : List (Reg → Reg) → ℕ → Reg → Reg × List WWrite
  | [], _, reg => finishWrite reg
  | e :: rest, total, reg =>
    match e reg with
    | none => finishWrite none
    | some s =>
      if s.status = Status.stopped then finishWrite (some s)
      else
        let t := total + mult
        let p := repeaterLoop mult rest t (some { s with iterations := t })
        (p.1, WWrite.progress t :: p.2)

/-- The operations that touch one session's slot after creation:
the worker's per-tick progress update, an external stop_intention call,
the worker's final completed write, and the deferred removal
(active_sessions.pop(session_id, None), a no-op when absent). -/
inductive EngineOp where
  | tickProgress (n : ℕ)
  | stopReq
  | workerFinish
  | reap
deriving DecidableEq, Repr

/-- Effect of one engine operation on the session slot. -/
def engineStep : EngineOp → Reg → Reg
  | EngineOp.tickProgress n, some s => some { s with iterations := n }
  | EngineOp.tickProgress _, none => none
  | EngineOp.stopReq, r => (stop_intention r).1
  | EngineOp.workerFinish, r => (finishWrite r).1
  | EngineOp.reap, _ => none

/-- Apply a sequence of engine operations in order. -/
def runOps (ops : List EngineOp) (r : Reg) : Reg :=
  ops.foldl (fun r op => engineStep op r) r

/-- The slot holds no record in status "running". -/
def notRunning : Reg → Bool
  | none => true
  | some s => decide (s.status ≠ Status.running)

/-! ## Session Lifecycle Manager endpoints (empty-seed validation) -/

/-- The process-wide mutable state the start endpoints touch:
the soul_archive list (line 387), the active_sessions dict (line 498,
restricted to the id of the session being started), and the number of
worker threads spawned so far. -/
structure ServerState where
  soul_archive : List String
  sessions : List (String × Session)
  workers : ℕ
deriving DecidableEq, Repr

/-- The JSON response shape of the start endpoints. -/
structure StartResp where
  success : Bool
  message : String
deriving DecidableEq, Repr

/-- run_intention (lines 562-681), handler-level effects.
The raw intention is stripped (line 566); an empty result returns the
400 validation failure before the soul-archive append (line 577) and the
worker spawn (line 670); the session record itself is created by the
spawned worker (line 605), so a rejected request stores nothing. -/
def run_intention (st : ServerState) (rawIntention : String) (duration : ℤ) :
    ServerState × StartResp :=
  let intention := pyStrip rawIntention
  if intention = "" then
    (st, { success := false, message := "No intention provided." })
  else
    ({ st with soul_archive := st.soul_archive ++ [intention], workers := st.workers + 1 },
     { success := true
       message := "Intention is now running for " ++ toString duration ++ " seconds." })

/-- broadcast_scalar (lines 766-873), handler-level effects.
Here the session record is stored by the handler itself (line 779) before
the worker spawn, but only after the empty-intention check (line 773). -/
def broadcast_scalar (st : ServerState) (rawIntention : String) (sid : String) :
    ServerState × StartResp :=
  let intention := pyStrip rawIntention
  if intention = "" then
    (st, { success := false, message := "No intention provided" })
  else
    ({ st with soul_archive := st.soul_archive ++ [intention],
               sessions := st.sessions ++ [(sid, { status := Status.running, iterations := 0 })],
               workers := st.workers + 1 },
     { success := true, message := "Scalar field transmission initiated." })

/-! ## Healing-code lookup (get_healing_code, lines 513-557)

The catalog loaded from healing_codes.txt and its keyword pool are external
inputs; rapidfuzz process.extractOne with the partial_ratio scorer is an
external call modelled by a parameter fuzzy returning the best keyword and
its score (None on an empty pool). -/

/-- One parsed catalog entry (code, meaning, keyword list). -/
structure CodeEntry where
  code : String
  meaning : String
  keywords : List String
deriving DecidableEq, Repr

/-- One code in the JSON response. -/
structure CodeOut where
  code : String
  meaning : String
deriving DecidableEq, Repr

/-- The JSON response of get_healing_code. -/
structure LookupResp where
  success : Bool
  codes : List CodeOut
  message : String
deriving DecidableEq, Repr

/-- Python regex \s on the ASCII range. -/
def isPySpace (c : Char) : Bool :=
  c = ' ' || c = '\t' || c = '\n' || c = '\r' || c = '\x0b' || c = '\x0c'

/-- re.match(r'^\d[\d\s]{6,}$', s): a digit followed by at least six
digit-or-whitespace characters, and nothing else. -/
def matchesCodePattern (s : String) : Bool :=
  match s.data with
  | [] => false
  | c :: rest => c.isDigit && decide (6 ≤ rest.length) && rest.all (fun d => d.isDigit || isPySpace d)

/-- unique_codes[entry.code] = entry on a Python dict kept as an
insertion-ordered association list: an existing key keeps its position and
takes the new value, a new key is appended. -/
def upsertEntry : List (String × CodeEntry) → CodeEntry → List (String × CodeEntry)
  | [], e => [(e.code, e)]
  | p :: tl, e => if p.1 == e.code then (e.code, e) :: tl else p :: upsertEntry tl e

/-- One selection pass over the catalog: every entry satisfying P is keyed
into the unique_codes dict on top of init. -/
def insertPass (P : CodeEntry → Bool) (hc : List CodeEntry)
    (init : List (String × CodeEntry)) : List (String × CodeEntry) :=
  hc.foldl (fun m e => if P e then upsertEntry m e else m) init

/-- The exact-keyword pass (lines 522-524): every entry whose keyword list
contains the issue verbatim is keyed into unique_codes. -/
def exactMatches (hc : List CodeEntry) (issue : String) : List (String × CodeEntry) :=
  insertPass (fun e => e.keywords.contains issue) hc []

/-- The fuzzy pass (lines 533-536): every entry whose keyword list contains
the best fuzzy-matched keyword is keyed in on top of init. -/
def fuzzyMatches (hc : List CodeEntry) (best : String) (init : List (String × CodeEntry)) :
    List (String × CodeEntry) :=
  insertPass (fun e => e.keywords.contains best) hc init

/-- unique_codes after both passes (lines 520-536): the fuzzy pass runs only
when the exact pass found nothing, only when the keyword pool is non-empty,
and contributes only when the best score is at least 92. -/
def uniqueCodes (hc : List CodeEntry) (kw : List String)
    (fuzzy : String → List String → Option (String × ℚ)) (issue : String) :
    List (String × CodeEntry) :=
  let exact := exactMatches hc issue
  if exact.isEmpty then
    if kw.isEmpty then exact
    else
      match fuzzy issue kw with
      | none => exact
      | some (best, score) => if 92 ≤ score then fuzzyMatches hc best exact else exact
  else exact

/-- matched_codes[:limit] (line 545), Python slice semantics including a
negative bound; a limit of 0 (falsy) leaves the list whole. -/
def applyLimit (l : List CodeEntry) : Option ℤ → List CodeEntry
  | none => l
  | some n =>
    if n = 0 then l
    else if 0 ≤ n then l.take n.toNat
    else l.take (l.length - (-n).toNat)

/-- get_healing_code (lines 513-557). -/
def get_healing_code (hc : List CodeEntry) (kw : List String)
    (fuzzy : String → List String → Option (String × ℚ))
    (rawIssue : String) (limit : Option ℤ) : LookupResp :=
  let issue := strLower rawIssue
  let uc := uniqueCodes hc kw fuzzy issue
  let matched := (uc.map Prod.snd).filter (fun e => matchesCodePattern e.code)
  if matched.isEmpty then
    { success := false, codes := [], message := "No healing code found for this issue." }
  else
    { success := true
      codes := (applyLimit matched limit).map (fun e => { code := e.code, meaning := e.meaning })
      message := "" }

/-! ## Heartbeat endpoint and the auto-resonance worker (lines 974-1077)

emotional_scan stores the session record under session_id (the md5 of
"heartbeat:<time>", line 979/994) but starts the worker thread on
thread_session_id (a second md5 of "<intention>:<time>", line 1070).  The
registry is an insertion-ordered association list keyed by session id so
that both ids can be talked about at once. -/

/-- A session record of the heartbeat endpoint: its status, the pulse
counter, and whether the worker's pre-loop enrichment update (line 1018)
has been applied. -/
structure AutoSession where
  status : Status
  pulses : ℕ
  enriched : Bool
deriving DecidableEq, Repr

/-- The active_sessions dict, insertion-ordered. -/
abbrev AutoReg := List (String × AutoSession)

/-- Dict lookup by session id. -/
def autoGet : AutoReg → String → Option AutoSession
  | [], _ => none
  | p :: tl, k => if p.1 == k then some p.2 else autoGet tl k

/-- Dict assignment by session id: an existing key keeps its position and
takes the new value, a new key is appended. -/
def autoSet : AutoReg → String → AutoSession → AutoReg
  | [], k, v => [(k, v)]
  | p :: tl, k, v => if p.1 == k then (k, v) :: tl else p :: autoSet tl k v

/-- The record emotional_scan stores under its session_id (lines 994-1002). -/
def mkAutoSession : AutoSession :=
  { status := Status.running, pulses := 0, enriched := false }

/-- The registry write of the heartbeat endpoint for one matched cue
(line 994): active_sessions[session_id] = {status: "running", ...}. -/
def heartbeat_register (reg : AutoReg) (sid : String) : AutoReg :=
  autoSet reg sid mkAutoSession

/-- The final write of the auto-resonance worker (lines 1067-1068):
sets "completed" and starts the removal timer when the id is present;
raises KeyError (no write, no timer) when it is absent.  The Bool records
whether the deferred-removal timer was scheduled. -/
def finishAuto (tid : String) (reg : AutoReg) : AutoReg × Bool :=
  match autoGet reg tid with
  | none => (reg, false)
  | some s => (autoSet reg tid { s with status := Status.completed }, true)

/-- The auto-resonance worker loop (lines 1035-1064), time and external
interleavings modelled as in repeaterLoop: one env entry per tick remaining
before the 150-second duration elapses. -/
def autoLoop (tid : String) : List (AutoReg → AutoReg) → AutoReg → AutoReg × Bool
  | [], reg => finishAuto tid reg
  | e :: rest, reg =>
    let reg2 := e reg
    match autoGet reg2 tid with
    | none => (reg2, false)
    | some s =>
      if s.status = Status.stopped then finishAuto tid reg2
      else autoLoop tid rest (autoSet reg2 tid { s with pulses := s.pulses + 1 })

/-- auto_resonance_broadcast(intention, current_session_id)
(lines 1004-1068): the first statement is
active_sessions[current_session_id].update({...}) (line 1018), so when the
worker's id is absent from the registry the subscript raises KeyError and
the thread dies leaving the registry untouched and scheduling no removal
timer; otherwise the record is enriched and the pulse loop runs. -/
def auto_resonance_broadcast (tid : String) (env : List (AutoReg → AutoReg)) (reg : AutoReg) :
    AutoReg × Bool :=
  match autoGet reg tid with
  | none => (reg, false)
  | some s => autoLoop tid env (autoSet reg tid { s with enriched := true })

/-! ## Concrete instantiations for closed statements

Closed counterexamples and witnesses instantiate the abstract hash / repr /
fuzzy-matcher parameters with trivial concrete functions; every universally
quantified theorem above them holds for these in particular. -/

/-- Trivial hex-digest instantiation. -/
def idStr : String → String := fun s => s

/-- Trivial float-repr instantiation. -/
def emptyRepr : ℚ → String := fun _ => ""

/-- A concrete seed string. -/
def seedW : String := "heal"

/-- A stop_intention call landing between two worker observations. -/
def stopBetween : Reg → Reg := fun r => (stop_intention r).1

/-- An interleaving step that leaves a stopped record in place. -/
def constStopped : Reg → Reg := fun _ => some { status := Status.stopped, iterations := 3 }

/-- A one-entry catalog whose code passes the numeric-pattern check. -/
def hcW : List CodeEntry :=
  [{ code := "12 345 678", meaning := "calm restored", keywords := ["anxiety", "fear"] }]

/-- Its keyword pool. -/
def kwW : List String := ["anxiety", "fear"]

/-- A fuzzy matcher that never fires. -/
def fzW : String → List String → Option (String × ℚ) := fun _ _ => none

/-- A concrete issue text. -/
def issueW : String := "Anxiety"

/-- The heartbeat endpoint's registered session id. -/
def sidW : String := "hb-session"

/-- The freshly generated worker thread id. -/
def tidW : String := "thread-session"

/-! # Theorems -/

/-! ## Engine helper lemmas -/

theorem engineStep_notRunning (op : EngineOp) (r : Reg) (h : notRunning r = true) :
    notRunning (engineStep op r) = true := by
  cases op <;> cases r <;>
    simp_all [engineStep, stop_intention, finishWrite, notRunning]

theorem runOps_cons (op : EngineOp) (ops : List EngineOp) (r : Reg) :
    runOps (op :: ops) r = runOps ops (engineStep op r) := rfl

/-! ## C2 -/

/-- C2 counterexample: stop_intention on a session already in status
"completed" flips it back to "stopped" — a Completed session's status does
change again, refuting the claimed terminality. -/
theorem c2_counterexample :
    engineStep EngineOp.stopReq (some { status := Status.completed, iterations := 0 }) =
      some { status := Status.stopped, iterations := 0 } ∧
    Status.stopped ≠ Status.completed := by
  exact ⟨rfl, by decide⟩

/-- C2 amended: under every sequence of engine operations (worker progress
ticks, stop requests, the worker's final write, deferred removal), once a
session's slot holds no record in status "running" it never again holds a
record in status "running"; the extra transitions Completed→Stopped (a stop
request on a completed session) and Stopped→Completed (the worker's final
write after an observed stop) do occur, but "running" is never re-entered. -/
theorem c2_amended (ops : List EngineOp) (r : Reg) (h : notRunning r = true) :
    notRunning (runOps ops r) = true := by
  induction ops generalizing r with
  | nil => exact h
  | cons op ops ih => exact ih (engineStep op r) (engineStep_notRunning op r h)

/-- C2 witness: the amended invariant applied to a concrete completed
session hit by a stop request and the worker's final write. -/
theorem c2_witness :
    notRunning (runOps [EngineOp.stopReq, EngineOp.workerFinish]
      (some { status := Status.completed, iterations := 0 })) = true :=
  c2_amended [EngineOp.stopReq, EngineOp.workerFinish]
    (some { status := Status.completed, iterations := 0 }) (by decide)

/-! ## C3 -/

/-- C3 counterexample: a worker tick observes the externally stopped record,
breaks out of the loop — and then performs one more write, setting the
record's status to "completed"; the record is mutated again after the stop
was observed, refuting the no-further-writes claim. -/
theorem c3_counterexample :
    (repeaterLoop 1 [stopBetween] 0 (some { status := Status.running, iterations := 0 })).2 =
      [WWrite.setCompleted] ∧
    (repeaterLoop 1 [stopBetween] 0 (some { status := Status.running, iterations := 0 })).1 =
      some { status := Status.completed, iterations := 0 } := by
  exact ⟨rfl, rfl⟩

/-- C3 amended: when a worker tick observes a record in status "stopped" it
exits the loop with no further progress writes, but performs exactly one
further write — the unconditional final status = "completed" assignment —
and then terminates. -/
theorem c3_amended (mult total : ℕ) (e : Reg → Reg) (rest : List (Reg → Reg)) (reg : Reg)
    (s : Session) (hobs : e reg = some s) (hst : s.status = Status.stopped) :
    repeaterLoop mult (e :: rest) total reg =
      (some { s with status := Status.completed }, [WWrite.setCompleted]) := by
  simp [repeaterLoop, hobs, hst, finishWrite]

/-- C3 witness: the amended statement at a concrete interleaving in which
the record is already stopped at the first observation. -/
theorem c3_witness :
    repeaterLoop 2 [constStopped] 5 (some { status := Status.running, iterations := 3 }) =
      (some { status := Status.completed, iterations := 3 }, [WWrite.setCompleted]) :=
  c3_amended 2 5 constStopped [] (some { status := Status.running, iterations := 3 })
    { status := Status.stopped, iterations := 3 } rfl rfl

/-! ## C4 -/

/-- C4 counterexample: two consecutive stop calls on one initially Running
session both report success (stop_intention answers by presence, not by
status), refuting "true exactly once and false thereafter". -/
theorem c4_counterexample :
    stopN 2 (some { status := Status.running, iterations := 0 }) =
      (some { status := Status.stopped, iterations := 0 }, [true, true]) := by
  exact rfl

/-- C4 amended: a stop request reports success whenever the session id is
present, whatever its status: all of n+1 successive stop calls on a stored
session return True, and the final status is Stopped. -/
theorem c4_amended (n : ℕ) (s : Session) :
    stopN (n + 1) (some s) =
      (some { s with status := Status.stopped }, List.replicate (n + 1) true) := by
  induction n generalizing s with
  | zero => simp [stopN, stop_intention]
  | succ n ih =>
    have h : stopN (n + 1 + 1) (some s) =
        ((stopN (n + 1) (some { s with status := Status.stopped })).1,
         true :: (stopN (n + 1) (some { s with status := Status.stopped })).2) := rfl
    rw [h, ih { s with status := Status.stopped }]
    simp [List.replicate]

/-! ## C5 -/

/-- C5: an intention that strips to the empty string makes run_intention
and broadcast_scalar return the synchronous validation failure with the
server state unchanged — no soul-archive append, no stored session record,
no worker thread spawned. -/
theorem c5 (st : ServerState) (raw : String) (d : ℤ) (sid : String)
    (h : pyStrip raw = "") :
    run_intention st raw d = (st, { success := false, message := "No intention provided." }) ∧
    broadcast_scalar st raw sid =
      (st, { success := false, message := "No intention provided" }) := by
  exact ⟨by simp [run_intention, h], by simp [broadcast_scalar, h]⟩

/-- C5 witness: the empty intention on a concrete server state. -/
theorem c5_witness :
    run_intention { soul_archive := [], sessions := [], workers := 0 } "" 60 =
      ({ soul_archive := [], sessions := [], workers := 0 },
       { success := false, message := "No intention provided." }) ∧
    broadcast_scalar { soul_archive := [], sessions := [], workers := 0 } "" sidW =
      ({ soul_archive := [], sessions := [], workers := 0 },
       { success := false, message := "No intention provided" }) :=
  c5 { soul_archive := [], sessions := [], workers := 0 } "" 60 sidW (by decide)

/-! ## C6 -/

/-- C6: evaluation at the failing input multiplier = 9: the amplify stage
returns fibonacci_multiplier 13 (the first sequence element ≥ 9), although
8 is a sequence element strictly closer to 9 — the code disagrees with its
own "closest Fibonacci number" comment and with the nearest-value claim. -/
theorem c6_eval :
    (divine_proportion_amplify idStr idStr seedW 9).fibonacci_multiplier = 13 ∧
    (8 : ℤ) ∈ FIBONACCI ∧
    ((9 : ℤ) - 8).natAbs < ((13 : ℤ) - 9).natAbs := by
  exact ⟨rfl, by decide, by decide⟩

/-! ## C8 -/

/-- C8: for every hash implementation and non-empty seed, the harmonic of
the lattice-field stage (metatrons_cube_amplifier) equals the seed's
character-code sum mod 9 with 0 mapped to 9, lies in {1..9}, and agrees
with the metatronic_alignment field of divine_proportion_amplify. -/
theorem c8 (h512 : String → String) (s : String) (b : Bool) (_h : s ≠ "") :
    1 ≤ (metatrons_cube_amplifier h512 s b).harmonic ∧
    (metatrons_cube_amplifier h512 s b).harmonic ≤ 9 ∧
    (metatrons_cube_amplifier h512 s b).harmonic =
      (if charSum s % 9 = 0 then 9 else charSum s % 9) ∧
    (divine_proportion_amplify h512 h512 s 1).metatronic_alignment =
      (metatrons_cube_amplifier h512 s b).harmonic := by
  have hm : charSum s % 9 < 9 := Nat.mod_lt _ (by norm_num)
  by_cases h0 : charSum s % 9 = 0 <;>
    simp [metatrons_cube_amplifier, divine_proportion_amplify, h0] <;> omega

/-- C8 witness: the harmonic bounds at the concrete seed. -/
theorem c8_witness :
    seedW ≠ "" ∧
    1 ≤ (metatrons_cube_amplifier idStr seedW false).harmonic ∧
    (metatrons_cube_amplifier idStr seedW false).harmonic ≤ 9 :=
  ⟨by decide, (c8 idStr seedW false (by decide)).1, (c8 idStr seedW false (by decide)).2.1⟩

/-! ## C10 helper lemmas -/

theorem autoGet_autoSet_self (reg : AutoReg) (k : String) (v : AutoSession) :
    autoGet (autoSet reg k v) k = some v := by
  induction reg with
  | nil => simp [autoGet, autoSet]
  | cons p tl ih =>
    by_cases h : p.1 = k <;> simp [autoGet, autoSet, h, ih]

theorem autoGet_autoSet_ne (reg : AutoReg) (k k2 : String) (v : AutoSession)
    (h : k2 ≠ k) : autoGet (autoSet reg k v) k2 = autoGet reg k2 := by
  induction reg with
  | nil => simp [autoGet, autoSet, Ne.symm h]
  | cons p tl ih =>
    by_cases hp : p.1 = k
    · simp [autoGet, autoSet, hp, h, Ne.symm h]
    · by_cases hp2 : p.1 = k2 <;> simp [autoGet, autoSet, hp, hp2, h, Ne.symm h, ih]

/-! ## C10 -/

/-- C10: for every prior registry state, every interleaving, and any fresh
worker-thread id distinct from the endpoint's session id and absent from
the registry, the heartbeat endpoint's registered record is never touched
again: the auto-resonance worker dies on its first KeyError, leaving the
registry exactly as the endpoint wrote it and scheduling no removal timer,
so the record registered under the endpoint's session id still holds the
freshly created record, whose status is "running". -/
theorem c10 (reg : AutoReg) (sid tid : String) (env : List (AutoReg → AutoReg))
    (hne : tid ≠ sid) (habs : autoGet reg tid = none) :
    auto_resonance_broadcast tid env (heartbeat_register reg sid) =
      (heartbeat_register reg sid, false) ∧
    autoGet (heartbeat_register reg sid) sid = some mkAutoSession ∧
    mkAutoSession.status = Status.running := by
  have h1 : autoGet (heartbeat_register reg sid) tid = none := by
    rw [heartbeat_register, autoGet_autoSet_ne reg sid tid mkAutoSession hne]
    exact habs
  refine ⟨?_, autoGet_autoSet_self reg sid mkAutoSession, rfl⟩
  simp [auto_resonance_broadcast, h1]

/-- C10 witness: a concrete heartbeat registration with a fresh thread id. -/
theorem c10_witness :
    auto_resonance_broadcast tidW [] (heartbeat_register [] sidW) =
      (heartbeat_register [] sidW, false) ∧
    autoGet (heartbeat_register [] sidW) sidW = some mkAutoSession ∧
    mkAutoSession.status = Status.running :=
  c10 [] sidW tidW [] (by decide) rfl

/-! ## ℚ helper lemmas -/

theorem one_le_PHI : (1 : ℚ) ≤ PHI := by norm_num [PHI]

theorem PHI_nonneg : (0 : ℚ) ≤ PHI := by norm_num [PHI]

theorem pyInt_of_nonneg (q : ℚ) (h : 0 ≤ q) : pyInt q = Int.floor q := by
  rw [pyInt, if_neg (not_lt.mpr h)]

/-! ## C1 -/

/-- C1 counterexample: flower_of_life_pattern reads the wall clock: with
the same seed and the same requested duration, running the stage at 00:00
and at 12:00 yields different planetary_alignment fields, so the stage is
not a function of (seed, parameters) alone. -/
theorem c1_counterexample :
    (flower_of_life_pattern idStr emptyRepr seedW 60 ⟨0, 0⟩).planetary_alignment = "sun" ∧
    (flower_of_life_pattern idStr emptyRepr seedW 60 ⟨12, 0⟩).planetary_alignment = "saturn" ∧
    (flower_of_life_pattern idStr emptyRepr seedW 60 ⟨0, 0⟩).planetary_alignment ≠
      (flower_of_life_pattern idStr emptyRepr seedW 60 ⟨12, 0⟩).planetary_alignment := by
  have h1 : (flower_of_life_pattern idStr emptyRepr seedW 60 ⟨0, 0⟩).planetary_alignment
      = "sun" := by
    dsimp only [flower_of_life_pattern]
    norm_num [argminFirst, PLANETARY_ANGLES, List.foldl, ratAbs]
  have h2 : (flower_of_life_pattern idStr emptyRepr seedW 60 ⟨12, 0⟩).planetary_alignment
      = "saturn" := by
    dsimp only [flower_of_life_pattern]
    norm_num [argminFirst, PLANETARY_ANGLES, List.foldl, ratAbs]
  exact ⟨h1, h2, by rw [h1, h2]; decide⟩

/-- C1 amended: every Generator stage except the flower-of-life stage is a
pure function of its seed and parameters, and even the flower-of-life
stage's hash-derived fields (flower_pattern, vesica_pisces_code) and its
optimal_duration are independent of the clock reading; only its
planetary_alignment / cosmic_degree fields depend on the time of day. -/
theorem c1_amended (h256 pf512 : String → String) (pr : ℚ → String)
    (seed : String) (d : ℤ) (hz : ℚ) (m : ℤ) (b : Bool) (t1 t2 : ClockTime) :
    (flower_of_life_pattern h256 pr seed d t1).flower_pattern =
      (flower_of_life_pattern h256 pr seed d t2).flower_pattern ∧
    (flower_of_life_pattern h256 pr seed d t1).optimal_duration =
      (flower_of_life_pattern h256 pr seed d t2).optimal_duration ∧
    (flower_of_life_pattern h256 pr seed d t1).vesica_pisces_code =
      (flower_of_life_pattern h256 pr seed d t2).vesica_pisces_code ∧
    torus_field_generator pf512 seed hz = torus_field_generator pf512 seed hz ∧
    divine_proportion_amplify h256 pf512 seed m = divine_proportion_amplify h256 pf512 seed m ∧
    metatrons_cube_amplifier pf512 seed b = metatrons_cube_amplifier pf512 seed b :=
  ⟨rfl, rfl, rfl, rfl, rfl, rfl⟩

/-! ## C7 -/

/-- C7 counterexample: at requested duration 1 the stage returns optimal
duration 1, which is strictly below 1 * φ ≈ 1.618: the returned value is
max(d, int(d*φ)) with int() truncation, not max(d, d*φ), and is not always
at least d * φ. -/
theorem c7_counterexample :
    (flower_of_life_pattern idStr emptyRepr seedW 1 ⟨0, 0⟩).optimal_duration = 1 ∧
    (((flower_of_life_pattern idStr emptyRepr seedW 1 ⟨0, 0⟩).optimal_duration : ℚ) <
      ((1 : ℤ) : ℚ) * PHI) := by
  have hfl : Int.floor (((1 : ℤ) : ℚ) * PHI) = 1 := by
    rw [show ((1 : ℤ) : ℚ) * PHI =
        ((1618033988749895 : ℤ) : ℚ) / ((1000000000000000 : ℕ) : ℚ) by norm_num [PHI]]
    rw [Rat.floor_intCast_div_natCast]
    decide
  have h1 : (flower_of_life_pattern idStr emptyRepr seedW 1 ⟨0, 0⟩).optimal_duration = 1 := by
    show intMax 1 (pyInt (((1 : ℤ) : ℚ) * PHI)) = 1
    rw [pyInt_of_nonneg _ (by norm_num [PHI]), hfl]
    decide
  refine ⟨h1, ?_⟩
  rw [h1]
  norm_num [PHI]

/-- C7 amended: the returned optimal duration equals
max(d, int(d * φ)) with Python int() truncation; hence for every
nonnegative requested duration d it is at least d, at most d * φ, and
within one unit below d * φ — but (as the counterexample shows) it can be
strictly less than d * φ. -/
theorem c7_amended (h256 : String → String) (pr : ℚ → String) (seed : String)
    (d : ℤ) (t : ClockTime) (hd : 0 ≤ d) :
    (flower_of_life_pattern h256 pr seed d t).optimal_duration =
      intMax d (pyInt ((d : ℚ) * PHI)) ∧
    d ≤ (flower_of_life_pattern h256 pr seed d t).optimal_duration ∧
    ((flower_of_life_pattern h256 pr seed d t).optimal_duration : ℚ) ≤ (d : ℚ) * PHI ∧
    (d : ℚ) * PHI - 1 < ((flower_of_life_pattern h256 pr seed d t).optimal_duration : ℚ) := by
  have hq : (0 : ℚ) ≤ (d : ℚ) * PHI := mul_nonneg (by exact_mod_cast hd) PHI_nonneg
  have heq : (flower_of_life_pattern h256 pr seed d t).optimal_duration =
      intMax d (pyInt ((d : ℚ) * PHI)) := rfl
  have hfl : pyInt ((d : ℚ) * PHI) = Int.floor ((d : ℚ) * PHI) := pyInt_of_nonneg _ hq
  have hle : d ≤ intMax d (pyInt ((d : ℚ) * PHI)) := by
    rw [intMax]; split <;> omega
  have hge : pyInt ((d : ℚ) * PHI) ≤ intMax d (pyInt ((d : ℚ) * PHI)) := by
    rw [intMax]; split <;> omega
  refine ⟨heq, by rw [heq]; exact hle, ?_, ?_⟩
  · rw [heq, intMax]
    split
    · rw [hfl]
      exact_mod_cast Int.floor_le ((d : ℚ) * PHI)
    · exact_mod_cast le_mul_of_one_le_right (by exact_mod_cast hd) one_le_PHI
  · rw [heq]
    have h2 : ((d : ℚ) * PHI) - 1 < (Int.floor ((d : ℚ) * PHI) : ℚ) :=
      Int.sub_one_lt_floor ((d : ℚ) * PHI)
    calc ((d : ℚ) * PHI) - 1 < (Int.floor ((d : ℚ) * PHI) : ℚ) := h2
      _ ≤ ((intMax d (pyInt ((d : ℚ) * PHI))) : ℚ) := by
          rw [← hfl]; exact_mod_cast hge

/-- C7 witness: the amended bounds at requested duration 3 (where the
returned optimal duration is 4 = int(3 * φ)). -/
theorem c7_witness :
    (0 : ℤ) ≤ 3 ∧
    3 ≤ (flower_of_life_pattern idStr emptyRepr seedW 3 ⟨0, 0⟩).optimal_duration ∧
    ((3 : ℤ) : ℚ) * PHI - 1 <
      ((flower_of_life_pattern idStr emptyRepr seedW 3 ⟨0, 0⟩).optimal_duration : ℚ) :=
  ⟨by decide, (c7_amended idStr emptyRepr seedW 3 ⟨0, 0⟩ (by decide)).2.1,
   (c7_amended idStr emptyRepr seedW 3 ⟨0, 0⟩ (by decide)).2.2.2⟩


/-! ## C9 helper lemmas -/

theorem upsertEntry_ne_nil (m : List (String × CodeEntry)) (e : CodeEntry) :
    upsertEntry m e ≠ [] := by
  cases m with
  | nil => simp [upsertEntry]
  | cons p tl => by_cases h : p.1 = e.code <;> simp [upsertEntry, h]

theorem insertPass_ne_nil (P : CodeEntry → Bool) (hc : List CodeEntry) :
    ∀ m, m ≠ [] → insertPass P hc m ≠ [] := by
  induction hc with
  | nil => intro m hm; exact hm
  | cons e tl ih =>
    intro m hm
    by_cases h : P e
    · simpa [insertPass, List.foldl_cons, h] using ih _ (upsertEntry_ne_nil m e)
    · simpa [insertPass, List.foldl_cons, h] using ih _ hm

theorem insertPass_nil_of_none (P : CodeEntry → Bool) (hc : List CodeEntry)
    (h : ∀ e ∈ hc, P e = false) : insertPass P hc [] = [] := by
  induction hc with
  | nil => rfl
  | cons e tl ih =>
    have he : P e = false := h e (List.mem_cons_self e tl)
    simpa [insertPass, List.foldl_cons, he] using
      ih (fun x hx => h x (List.mem_cons_of_mem e hx))

theorem insertPass_ne_nil_of_any (P : CodeEntry → Bool) (hc : List CodeEntry)
    (h : hc.any P = true) : ∀ m, insertPass P hc m ≠ [] := by
  induction hc with
  | nil => simp at h
  | cons e tl ih =>
    intro m
    by_cases he : P e
    · simpa [insertPass, List.foldl_cons, he] using
        insertPass_ne_nil P tl _ (upsertEntry_ne_nil m e)
    · have htl : tl.any P = true := by simpa [he] using h
      simpa [insertPass, List.foldl_cons, he] using ih htl m

theorem uniqueCodes_of_exact_ne_nil (hc : List CodeEntry) (kw : List String)
    (fz : String → List String → Option (String × ℚ)) (issue : String)
    (h : exactMatches hc issue ≠ []) :
    uniqueCodes hc kw fz issue = exactMatches hc issue := by
  simp only [uniqueCodes]
  cases hE : exactMatches hc issue with
  | nil => exact absurd hE h
  | cons a l => simp [hE]

theorem all_pattern_applyLimit (l : List CodeEntry) (limit : Option ℤ)
    (h : ∀ e ∈ l, matchesCodePattern e.code = true) :
    ((applyLimit l limit).map
      (fun e => ({ code := e.code, meaning := e.meaning } : CodeOut))).all
      (fun c => matchesCodePattern c.code) = true := by
  rw [List.all_eq_true]
  intro c hcm
  obtain ⟨e, he, rfl⟩ := List.mem_map.mp hcm
  have he2 : e ∈ l := by
    cases limit with
    | none => exact he
    | some n =>
      by_cases h0 : n = 0
      · simpa [applyLimit, h0] using he
      · by_cases hp : 0 ≤ n
        · exact List.take_subset _ _ (by simpa [applyLimit, h0, hp] using he)
        · exact List.take_subset _ _ (by simpa [applyLimit, h0, hp] using he)
  exact h e he2

theorem get_healing_code_success_all (hc : List CodeEntry) (kw : List String)
    (fz : String → List String → Option (String × ℚ))
    (rawIssue : String) (limit : Option ℤ)
    (hs : (get_healing_code hc kw fz rawIssue limit).success = true) :
    (get_healing_code hc kw fz rawIssue limit).codes.all
      (fun c => matchesCodePattern c.code) = true := by
  simp only [get_healing_code] at hs ⊢
  cases hM : (((uniqueCodes hc kw fz (strLower rawIssue)).map Prod.snd).filter
      (fun e => matchesCodePattern e.code)).isEmpty with
  | true => rw [hM] at hs; simp at hs
  | false =>
    simp only [Bool.false_eq_true, if_false]
    apply all_pattern_applyLimit
    intro e he
    exact (List.mem_filter.mp he).2

/-! ## C9 -/

/-- C9: the healing-code lookup (a) consults the catalog by exact keyword
first — when any entry matches the lowercased issue exactly, the response
does not depend on the fuzzy matcher at all; (b) when no exact match exists
and the fuzzy matcher's best score is below the fixed threshold 92, the
lookup fails; (c) every code in a successful response passes the
numeric-pattern format check. -/
theorem c9 (hc : List CodeEntry) (kw : List String)
    (fz : String → List String → Option (String × ℚ))
    (rawIssue : String) (limit : Option ℤ) :
    (hc.any (fun e => e.keywords.contains (strLower rawIssue)) = true →
      ∀ fz2, get_healing_code hc kw fz rawIssue limit =
        get_healing_code hc kw fz2 rawIssue limit) ∧
    ((∀ e ∈ hc, e.keywords.contains (strLower rawIssue) = false) →
      ∀ b sc, fz (strLower rawIssue) kw = some (b, sc) → sc < 92 →
        (get_healing_code hc kw fz rawIssue limit).success = false) ∧
    ((get_healing_code hc kw fz rawIssue limit).success = true →
      (get_healing_code hc kw fz rawIssue limit).codes.all
        (fun c => matchesCodePattern c.code) = true) := by
  refine ⟨?_, ?_, ?_⟩
  · intro h fz2
    have hne : exactMatches hc (strLower rawIssue) ≠ [] :=
      insertPass_ne_nil_of_any _ hc h []
    simp only [get_healing_code]
    rw [uniqueCodes_of_exact_ne_nil hc kw fz (strLower rawIssue) hne,
        uniqueCodes_of_exact_ne_nil hc kw fz2 (strLower rawIssue) hne]
  · intro hall b sc hfz hlt
    have hnil : exactMatches hc (strLower rawIssue) = [] :=
      insertPass_nil_of_none _ hc hall
    have hu : uniqueCodes hc kw fz (strLower rawIssue) = [] := by
      by_cases hk : kw.isEmpty <;>
        simp [uniqueCodes, hnil, hk, hfz, not_le.mpr hlt]
    simp [get_healing_code, hu]
  · exact get_healing_code_success_all hc kw fz rawIssue limit

/-- C9 witness: on a concrete catalog the exact pass fires, the response
succeeds, and every returned code passes the numeric-pattern check. -/
theorem c9_witness :
    (get_healing_code hcW kwW fzW issueW none).success = true ∧
    (get_healing_code hcW kwW fzW issueW none).codes.all
      (fun c => matchesCodePattern c.code) = true :=
  ⟨by decide, (c9 hcW kwW fzW issueW none).2.2 (by decide)⟩

end HealingApi
